import Mathlib

/-!
Shallow embedding of the NVL backend (src/backend/server.js).

The JSON store `db.json` is modelled by the structure `Db`. The source keeps
`friends` and `friendRequests` as arrays of per-user entries with at most one
entry per `userId` (registration pushes one entry, and the `getFR`/`getFriends`
helpers only push an entry when none exists); `db.messages` is an object keyed
by chat id. We model each of these keyed collections as a total function from
the key to the record contents, with the absent-entry default (`[]`) built in:
this is exactly the observable behaviour of the source's find-or-create
accessors. Every HTTP handler body (after the auth middleware) is embedded as
a pure function from the store and its arguments to the new store and the
JSON result or error; `Date.now()` and `new Date().toISOString()` are passed
in as explicit `now`/`time` arguments.
-/

namespace NVL

/-- Error responses (4xx JSON bodies) the embedded handlers can return. -/
inductive Err where
  | invalidTarget
  | userNotFound
  | postNotFound
  | emptyPost
  | emptyPayload
  deriving DecidableEq

/-- A user record as created by `POST /api/register`. -/
structure User where
  id : String
  username : String
  password : String
  avatar : String
  avatarImage : Option String
  bio : String
  deriving DecidableEq

/-- A comment record as created by `POST /api/posts/:postId/comment`. -/
structure Comment where
  id : String
  authorId : String
  author : String
  authorAvatar : String
  authorAvatarImage : Option String
  text : String
  time : String
  deriving DecidableEq

/-- A post record as created by `POST /api/posts`. -/
structure Post where
  id : String
  authorId : String
  author : String
  authorAvatar : String
  authorAvatarImage : Option String
  text : String
  image : Option String
  createdAt : Nat
  likes : List String
  comments : List Comment
  deriving DecidableEq

/-- A chat message (text or voice), as created by the two chat routes.
Text messages carry `text := some _, audioData := none` and voice messages
the other way around, matching the object shapes built in the source. -/
structure Msg where
  id : String
  senderId : String
  kind : String
  text : Option String
  audioData : Option String
  time : String
  read : Bool
  deriving DecidableEq

/-- The whole persisted store (`db.json`). -/
@[ext]
structure Db where
  users : List User
  posts : List Post
  friends : String → List String
  sent : String → List String
  received : String → List String
  messages : String → List Msg

/-- Functional update of a keyed collection at one key (a JS in-place
mutation of the entry for `k`). -/
def updateMap (m : String → List α) (k : String) (v : List α) : String → List α :=
  fun x => if x = k then v else m x

/-- The source's `if (!l.includes(x)) l.push(x)`. -/
def pushUnique (l : List String) (x : String) : List String :=
  if x ∈ l then l else l ++ [x]

/-- JS falsiness of an optional string request-body field: absent
(`undefined`) or the empty string. -/
def falsy : Option String → Bool
  | none => true
  | some s => s = ""

/-- Lexicographic comparison of char lists by code point, the order JS's
default `Array.prototype.sort` comparator induces on strings. -/
def charListLt : List Char → List Char → Bool
  | [], [] => false
  | [], _ :: _ => true
  | _ :: _, [] => false
  | a :: as, b :: bs =>
    if a.toNat < b.toNat then true
    else if b.toNat < a.toNat then false
    else charListLt as bs

/-- The chat routes' `[userId, friendId].sort().join('_')`: the thread
key of an unordered pair of identities. -/
def chatId (a b : String) : String :=
  if charListLt b.data a.data then b ++ "_" ++ a else a ++ "_" ++ b

/-- Handler of `POST /api/friend-requests` (send a friend request), after auth. -/
def sendRequest (db : Db) (actorId toUserId : String) : Db × Except Err Unit :=
  if toUserId = actorId then (db, .error .invalidTarget)
  else if (db.users.find? (fun u => u.id = toUserId)).isNone then
    (db, .error .userNotFound)
  else
    ({ db with
        sent := updateMap db.sent actorId (pushUnique (db.sent actorId) toUserId),
        received := updateMap db.received toUserId
          (pushUnique (db.received toUserId) actorId) },
      .ok ())

/-- Handler of `POST /api/friend-requests/:fromUserId/accept`, after auth. The source
always answers `{success: true}`; when `actorId = fromUserId` the two
`getFriends` calls alias the same entry, which the sequential update of
`friends1` below reproduces. -/
def acceptRequest (db : Db) (actorId fromUserId : String) : Db × Except Err Unit :=
  let received1 := updateMap db.received actorId
    ((db.received actorId).filter (fun i => i ≠ fromUserId))
  let sent1 := updateMap db.sent fromUserId
    ((db.sent fromUserId).filter (fun i => i ≠ actorId))
  let friends1 := updateMap db.friends actorId
    (pushUnique (db.friends actorId) fromUserId)
  let friends2 := updateMap friends1 fromUserId
    (pushUnique (friends1 fromUserId) actorId)
  ({ db with received := received1, sent := sent1, friends := friends2 }, .ok ())

/-- Handler of `POST /api/friend-requests/:fromUserId/decline`, after auth; always
answers `{success: true}`. -/
def declineRequest (db : Db) (actorId fromUserId : String) : Db × Except Err Unit :=
  let received1 := updateMap db.received actorId
    ((db.received actorId).filter (fun i => i ≠ fromUserId))
  let sent1 := updateMap db.sent fromUserId
    ((db.sent fromUserId).filter (fun i => i ≠ actorId))
  ({ db with received := received1, sent := sent1 }, .ok ())

/-- Replace the first post whose `id` matches (the post JS `find` returns and
then mutates in place). -/
def updateFirst (ps : List Post) (pid : String) (f : Post → Post) : List Post :=
  match ps with
  | [] => []
  | p :: rest => if p.id = pid then f p :: rest else p :: updateFirst rest pid f

/-- Handler of `POST /api/posts/:postId/like`, after auth: `indexOf`/`push`/`splice`
like toggling; answers the resulting like list. -/
def toggleLike (db : Db) (actorId postId : String) :
    Db × Except Err (List String) :=
  match db.posts.find? (fun p => p.id = postId) with
  | none => (db, .error .postNotFound)
  | some post =>
    let newLikes :=
      if actorId ∈ post.likes then post.likes.erase actorId
      else post.likes ++ [actorId]
    ({ db with
        posts := updateFirst db.posts postId (fun p => { p with likes := newLikes }) },
      .ok newLikes)

/-- Handler of `POST /api/posts`, after auth: create a post, denormalizing the actor's
display fields. `now` stands for the two `Date.now()` calls. -/
def createPost (db : Db) (user : User) (text image : Option String) (now : Nat) :
    Db × Except Err Post :=
  if falsy text && falsy image then (db, .error .emptyPost)
  else
    let post : Post :=
      { id := toString now
        authorId := user.id
        author := user.username
        authorAvatar := user.avatar
        authorAvatarImage := user.avatarImage
        text := text.getD ""
        image := if falsy image then none else image
        createdAt := now
        likes := []
        comments := [] }
    ({ db with posts := db.posts ++ [post] }, .ok post)

/-- Handler of `GET /api/posts`, after auth: `posts.slice().sort((a,b) => b.createdAt -
a.createdAt)`. ECMAScript `Array.prototype.sort` is a stable sort by the
comparator, embedded here as a stable merge sort with `a` allowed before `b`
iff `b.createdAt <= a.createdAt` (descending). -/
def listPosts (db : Db) : List Post :=
  db.posts.mergeSort (fun a b => decide (b.createdAt ≤ a.createdAt))

/-- Handler of `POST /api/chats/:friendId/message`, after auth: append a text message
to the thread of the unordered pair, creating the thread on first use. -/
def sendTextMessage (db : Db) (user : User) (friendId : String)
    (text : Option String) (now : Nat) (time : String) : Db × Except Err Msg :=
  if falsy text then (db, .error .emptyPayload)
  else
    let cid := chatId user.id friendId
    let msg : Msg :=
      { id := toString now, senderId := user.id, kind := "text"
        text := some (text.getD ""), audioData := none, time := time, read := false }
    ({ db with messages := updateMap db.messages cid (db.messages cid ++ [msg]) },
      .ok msg)

/-- Handler of `POST /api/chats/:friendId/voice`, after auth: append a voice message. -/
def sendVoiceMessage (db : Db) (user : User) (friendId : String)
    (audioData : Option String) (now : Nat) (time : String) : Db × Except Err Msg :=
  if falsy audioData then (db, .error .emptyPayload)
  else
    let cid := chatId user.id friendId
    let msg : Msg :=
      { id := toString now, senderId := user.id, kind := "voice"
        text := none, audioData := some (audioData.getD ""), time := time, read := false }
    ({ db with messages := updateMap db.messages cid (db.messages cid ++ [msg]) },
      .ok msg)

/-- Friendship-graph symmetry (§3 of the spec): `B ∈ friends(A) ⇔ A ∈ friends(B)`. -/
def Symm (db : Db) : Prop := ∀ a b, b ∈ db.friends a ↔ a ∈ db.friends b

/-- Request mirror consistency (§3 of the spec): `B ∈ sent(A) ⇔ A ∈ received(B)`. -/
def Mirror (db : Db) : Prop := ∀ a b, b ∈ db.sent a ↔ a ∈ db.received b

/-- No self-friendship (§3 of the spec). -/
def NoSelfFriend (db : Db) : Prop := ∀ a, a ∉ db.friends a

/-- One relationship-graph operation, as named in §4.2 of the spec. -/
inductive GraphOp where
  | send (actorId targetId : String)
  | accept (actorId fromUserId : String)
  | decline (actorId fromUserId : String)

/-- Apply one graph operation to the store (errors leave the store as is,
since the handler answers before `writeDb`). -/
def applyOp (db : Db) : GraphOp → Db
  | .send a t => (sendRequest db a t).1
  | .accept a f => (acceptRequest db a f).1
  | .decline a f => (declineRequest db a f).1

/-- Run a sequence of graph operations. -/
def runOps (db : Db) (ops : List GraphOp) : Db := ops.foldl applyOp db

/-- Concrete user for witnesses. -/
def user1 : User :=
  { id := "1", username := "alice", password := "pw", avatar := "A"
    avatarImage := none, bio := "" }

/-- Concrete user for witnesses. -/
def user2 : User :=
  { id := "2", username := "bob", password := "pw", avatar := "B"
    avatarImage := none, bio := "" }

/-- A store with two registered users and no other data. -/
def db0 : Db :=
  { users := [user1, user2], posts := []
    friends := fun _ => [], sent := fun _ => [], received := fun _ => []
    messages := fun _ => [] }

example : (sendRequest db0 "1" "2").2 = .ok () := rfl
example : "2" ∈ ((sendRequest db0 "1" "2").1.sent "1") := by decide
example : chatId "1" "2" = "1_2" ∧ chatId "2" "1" = "1_2" := by decide

theorem mem_pushUnique {l : List String} {x y : String} :
    y ∈ pushUnique l x ↔ y ∈ l ∨ y = x := by
  unfold pushUnique
  by_cases h : x ∈ l
  · rw [if_pos h]
    exact ⟨Or.inl, fun h1 => h1.elim id (fun e => e ▸ h)⟩
  · rw [if_neg h]
    simp

theorem updateMap_same (m : String → List α) (k : String) :
    updateMap m k (m k) = m := by
  funext x
  unfold updateMap
  by_cases h : x = k
  · rw [if_pos h, h]
  · rw [if_neg h]

theorem sendRequest_friends (db : Db) (a t : String) :
    (sendRequest db a t).1.friends = db.friends := by
  unfold sendRequest
  split
  · rfl
  · split
    · rfl
    · rfl

theorem sendRequest_symm (db : Db) (a t : String) (hs : Symm db) :
    Symm (sendRequest db a t).1 := by
  intro x y
  rw [sendRequest_friends]
  exact hs x y

theorem sendRequest_mirror (db : Db) (a t : String) (hm : Mirror db) :
    Mirror (sendRequest db a t).1 := by
  unfold sendRequest
  split
  · exact hm
  · split
    · exact hm
    · intro x y
      show y ∈ updateMap db.sent a (pushUnique (db.sent a) t) x ↔
        x ∈ updateMap db.received t (pushUnique (db.received t) a) y
      unfold updateMap
      by_cases hx : x = a
      · by_cases hy : y = t
        · rw [if_pos hx, if_pos hy, mem_pushUnique, mem_pushUnique]
          simp [hx, hy]
        · rw [if_pos hx, if_neg hy, mem_pushUnique]
          simp only [hy, or_false]
          rw [hx]
          exact hm a y
      · by_cases hy : y = t
        · rw [if_neg hx, if_pos hy, mem_pushUnique]
          simp only [hx, or_false]
          rw [hy]
          exact hm x t
        · rw [if_neg hx, if_neg hy]
          exact hm x y

theorem acceptRequest_friends_def (db : Db) (a f : String) :
    (acceptRequest db a f).1.friends =
      updateMap (updateMap db.friends a (pushUnique (db.friends a) f)) f
        (pushUnique (updateMap db.friends a (pushUnique (db.friends a) f) f) a) := rfl

theorem acceptRequest_friends_mem (db : Db) (a f x y : String) :
    y ∈ (acceptRequest db a f).1.friends x ↔
      y ∈ db.friends x ∨ (x = a ∧ y = f) ∨ (x = f ∧ y = a) := by
  rw [acceptRequest_friends_def]
  unfold updateMap
  by_cases hxf : x = f <;> by_cases hxa : x = a <;> by_cases hfa : f = a <;>
    by_cases hyf : y = f <;> by_cases hya : y = a <;>
      simp_all [mem_pushUnique]

theorem acceptRequest_received_mem (db : Db) (a f x y : String) :
    y ∈ (acceptRequest db a f).1.received x ↔
      y ∈ db.received x ∧ ¬(x = a ∧ y = f) := by
  show y ∈ updateMap db.received a ((db.received a).filter (fun i => i ≠ f)) x ↔ _
  unfold updateMap
  by_cases hxa : x = a <;> by_cases hyf : y = f <;> simp_all

theorem acceptRequest_sent_mem (db : Db) (a f x y : String) :
    y ∈ (acceptRequest db a f).1.sent x ↔
      y ∈ db.sent x ∧ ¬(x = f ∧ y = a) := by
  show y ∈ updateMap db.sent f ((db.sent f).filter (fun i => i ≠ a)) x ↔ _
  unfold updateMap
  by_cases hxf : x = f <;> by_cases hya : y = a <;> simp_all

theorem acceptRequest_symm (db : Db) (a f : String) (hs : Symm db) :
    Symm (acceptRequest db a f).1 := by
  intro x y
  have h1 := hs x y
  rw [acceptRequest_friends_mem, acceptRequest_friends_mem]
  tauto

theorem acceptRequest_mirror (db : Db) (a f : String) (hm : Mirror db) :
    Mirror (acceptRequest db a f).1 := by
  intro x y
  have h1 := hm x y
  rw [acceptRequest_sent_mem, acceptRequest_received_mem]
  tauto

theorem declineRequest_received_mem (db : Db) (a f x y : String) :
    y ∈ (declineRequest db a f).1.received x ↔
      y ∈ db.received x ∧ ¬(x = a ∧ y = f) := by
  show y ∈ updateMap db.received a ((db.received a).filter (fun i => i ≠ f)) x ↔ _
  unfold updateMap
  by_cases hxa : x = a <;> by_cases hyf : y = f <;> simp_all

theorem declineRequest_sent_mem (db : Db) (a f x y : String) :
    y ∈ (declineRequest db a f).1.sent x ↔
      y ∈ db.sent x ∧ ¬(x = f ∧ y = a) := by
  show y ∈ updateMap db.sent f ((db.sent f).filter (fun i => i ≠ a)) x ↔ _
  unfold updateMap
  by_cases hxf : x = f <;> by_cases hya : y = a <;> simp_all

theorem declineRequest_symm (db : Db) (a f : String) (hs : Symm db) :
    Symm (declineRequest db a f).1 := by
  intro x y
  exact hs x y

theorem declineRequest_mirror (db : Db) (a f : String) (hm : Mirror db) :
    Mirror (declineRequest db a f).1 := by
  intro x y
  have h1 := hm x y
  rw [declineRequest_sent_mem, declineRequest_received_mem]
  tauto

theorem applyOp_preserves (db : Db) (op : GraphOp) (hs : Symm db) (hm : Mirror db) :
    Symm (applyOp db op) ∧ Mirror (applyOp db op) := by
  cases op with
  | send a t => exact ⟨sendRequest_symm db a t hs, sendRequest_mirror db a t hm⟩
  | accept a f => exact ⟨acceptRequest_symm db a f hs, acceptRequest_mirror db a f hm⟩
  | decline a f => exact ⟨declineRequest_symm db a f hs, declineRequest_mirror db a f hm⟩

/-- C1: for every sequence of sendRequest/acceptRequest/declineRequest
operations starting from a state satisfying the invariants, at every
observable point (the state after each completed operation is `runOps` of
some prefix, and this theorem quantifies over all operation lists) the
friendship graph is symmetric and the request records are mirror-consistent. -/
theorem graph_invariants_preserved (db : Db) (ops : List GraphOp)
    (hs : Symm db) (hm : Mirror db) :
    Symm (runOps db ops) ∧ Mirror (runOps db ops) := by
  induction ops generalizing db with
  | nil => exact ⟨hs, hm⟩
  | cons op rest ih =>
      exact ih (applyOp db op) (applyOp_preserves db op hs hm).1
        (applyOp_preserves db op hs hm).2

theorem graph_invariants_preserved_witness :
    Symm (runOps db0 [GraphOp.send "1" "2", GraphOp.accept "2" "1"]) ∧
    Mirror (runOps db0 [GraphOp.send "1" "2", GraphOp.accept "2" "1"]) :=
  graph_invariants_preserved db0 [GraphOp.send "1" "2", GraphOp.accept "2" "1"]
    (fun a b => by simp [db0]) (fun a b => by simp [db0])

/-- C3: the accept route has no guard against `fromUserId = actorId`; accepting
a (nonexistent) request from oneself pushes the actor into their own friends
list, so a reachable state violates the no-self-friendship invariant even
though the initial state satisfies it. -/
theorem acceptRequest_self_creates_self_friendship :
    NoSelfFriend db0 ∧
    "1" ∈ (runOps db0 [GraphOp.accept "1" "1"]).friends "1" := by
  constructor
  · intro a
    simp [db0]
  · decide

/-- Reachable state: bob requests alice, alice accepts, then alice sends a
(redundant) request back to bob while they are already friends. -/
def dbC4 : Db :=
  runOps db0 [GraphOp.send "2" "1", GraphOp.accept "1" "2", GraphOp.send "1" "2"]

/-- C4 counterexample: from the invariant-satisfying store `db0`, the sequence
behind `dbC4` reaches a state where "2" is simultaneously a friend of "1" and
a pending sent request of "1" (mirrored in "2"'s received set): `sendRequest`
never checks for an existing friendship. -/
theorem request_friendship_coexistence :
    Symm db0 ∧ Mirror db0 ∧
    "2" ∈ dbC4.friends "1" ∧ "2" ∈ dbC4.sent "1" ∧ "1" ∈ dbC4.received "2" :=
  ⟨fun a b => by simp [db0], fun a b => by simp [db0],
    by decide, by decide, by decide⟩

/-- C4 (amended): accept and decline clear the pending request atomically, in
the same step that (for accept) establishes the symmetric edge: right after
`acceptRequest(actor, from)` the accepted request is pending in neither
direction and the edge exists in both, and right after
`declineRequest(actor, from)` the request is pending in neither direction and
no edge was created. (The unamended per-state invariant fails because
`sendRequest` between existing friends recreates a pending request, see the
counterexample.) -/
theorem accept_decline_clear_request (db : Db) (a f : String) :
    f ∉ (acceptRequest db a f).1.received a ∧
    a ∉ (acceptRequest db a f).1.sent f ∧
    f ∈ (acceptRequest db a f).1.friends a ∧
    a ∈ (acceptRequest db a f).1.friends f ∧
    f ∉ (declineRequest db a f).1.received a ∧
    a ∉ (declineRequest db a f).1.sent f ∧
    (declineRequest db a f).1.friends = db.friends := by
  refine ⟨?_, ?_, ?_, ?_, ?_, ?_, rfl⟩
  · rw [acceptRequest_received_mem]
    simp
  · rw [acceptRequest_sent_mem]
    simp
  · rw [acceptRequest_friends_mem]
    simp
  · rw [acceptRequest_friends_mem]
    simp
  · rw [declineRequest_received_mem]
    simp
  · rw [declineRequest_sent_mem]
    simp

theorem sendRequest_noop (db : Db) (a t : String) (hne : t ≠ a)
    (hex : (db.users.find? (fun u => u.id = t)).isNone = false)
    (hts : t ∈ db.sent a) (har : a ∈ db.received t) :
    sendRequest db a t = (db, .ok ()) := by
  have h1 : pushUnique (db.sent a) t = db.sent a := by
    unfold pushUnique
    rw [if_pos hts]
  have h2 : pushUnique (db.received t) a = db.received t := by
    unfold pushUnique
    rw [if_pos har]
  unfold sendRequest
  rw [if_neg hne, hex, if_neg Bool.false_ne_true, h1, h2,
    updateMap_same, updateMap_same]

/-- C5: for an existing target distinct from the actor, `sendRequest`
succeeds and is idempotent: the second call returns success and leaves the
store exactly as the first call left it. -/
theorem sendRequest_idempotent (db : Db) (a t : String) (hne : t ≠ a)
    (hex : (db.users.find? (fun u => u.id = t)).isSome = true) :
    (sendRequest db a t).2 = .ok () ∧
    sendRequest (sendRequest db a t).1 a t = ((sendRequest db a t).1, .ok ()) := by
  have hnone : (db.users.find? (fun u => u.id = t)).isNone = false := by
    rcases Option.isSome_iff_exists.mp hex with ⟨u, hu⟩
    rw [hu]
    rfl
  have h1 : sendRequest db a t =
      ({ db with
          sent := updateMap db.sent a (pushUnique (db.sent a) t),
          received := updateMap db.received t (pushUnique (db.received t) a) },
        .ok ()) := by
    unfold sendRequest
    rw [if_neg hne, hnone, if_neg Bool.false_ne_true]
  refine ⟨by rw [h1], ?_⟩
  apply sendRequest_noop
  · exact hne
  · rw [h1]
    exact hnone
  · rw [h1]
    show t ∈ updateMap db.sent a (pushUnique (db.sent a) t) a
    unfold updateMap
    rw [if_pos rfl, mem_pushUnique]
    exact Or.inr rfl
  · rw [h1]
    show a ∈ updateMap db.received t (pushUnique (db.received t) a) t
    unfold updateMap
    rw [if_pos rfl, mem_pushUnique]
    exact Or.inr rfl

theorem sendRequest_idempotent_witness :
    (sendRequest db0 "1" "2").2 = .ok () ∧
    sendRequest (sendRequest db0 "1" "2").1 "1" "2" =
      ((sendRequest db0 "1" "2").1, .ok ()) :=
  sendRequest_idempotent db0 "1" "2" (by decide) (by decide)

/-- C6: declining a request that was never sent answers success and is a
complete no-op on the store: in a mirror-consistent store with
`f ∉ received(actor)`, `declineRequest` returns the store unchanged (so all
friend sets and request sets are untouched and no edge is created). -/
theorem declineRequest_noop (db : Db) (a f : String) (hm : Mirror db)
    (hnr : f ∉ db.received a) :
    declineRequest db a f = (db, .ok ()) := by
  have h1 : (db.received a).filter (fun i => i ≠ f) = db.received a := by
    apply List.filter_eq_self.mpr
    intro x hx
    simp only [ne_eq, decide_eq_true_eq]
    intro he
    exact hnr (he ▸ hx)
  have hns : a ∉ db.sent f := fun h => hnr ((hm f a).mp h)
  have h2 : (db.sent f).filter (fun i => i ≠ a) = db.sent f := by
    apply List.filter_eq_self.mpr
    intro x hx
    simp only [ne_eq, decide_eq_true_eq]
    intro he
    exact hns (he ▸ hx)
  unfold declineRequest
  rw [h1, h2, updateMap_same, updateMap_same]

theorem declineRequest_noop_witness :
    declineRequest db0 "1" "9" = (db0, .ok ()) :=
  declineRequest_noop db0 "1" "9" (fun a b => by simp [db0]) (by simp [db0])

theorem find?_updateFirst (ps : List Post) (pid : String) (f : Post → Post)
    (hid : ∀ p, (f p).id = p.id) (post : Post)
    (hfind : ps.find? (fun p => p.id = pid) = some post) :
    (updateFirst ps pid f).find? (fun p => p.id = pid) = some (f post) := by
  induction ps with
  | nil => exact absurd hfind (by simp)
  | cons p rest ih =>
    unfold updateFirst
    by_cases h : p.id = pid
    · rw [if_pos h]
      rw [List.find?_cons_of_pos _ (by simp [h])] at hfind
      rw [List.find?_cons_of_pos _ (by simp [hid, h])]
      rw [Option.some_inj] at hfind
      rw [hfind]
    · rw [if_neg h]
      rw [List.find?_cons_of_neg _ (by simp [h])] at hfind
      rw [List.find?_cons_of_neg _ (by simp [h])]
      exact ih hfind

theorem toggleLike_eq (db : Db) (a pid : String) (q : Post)
    (hfind : db.posts.find? (fun p => p.id = pid) = some q) :
    toggleLike db a pid =
      ({ db with posts := updateFirst db.posts pid (fun p =>
          { p with likes := if a ∈ q.likes then q.likes.erase a else q.likes ++ [a] }) },
        .ok (if a ∈ q.likes then q.likes.erase a else q.likes ++ [a])) := by
  unfold toggleLike
  rw [hfind]

/-- C7: like toggling. For a post in the store (found by id, with
duplicate-free likes, the only reachable shape since posts start with `[]`
and a user is pushed only when absent): a single toggle removes the actor if
present and appends them if absent, answering the resulting like list; two
successive toggles return the like set to exactly its original membership;
and toggling an unknown post id fails with `PostNotFound` leaving the store
unchanged. -/
theorem toggleLike_spec (db : Db) (a pid : String) (post : Post)
    (hfind : db.posts.find? (fun p => p.id = pid) = some post)
    (hnd : post.likes.Nodup) :
    (∃ db1 l1 db2 l2,
      toggleLike db a pid = (db1, .ok l1) ∧
      l1 = (if a ∈ post.likes then post.likes.erase a else post.likes ++ [a]) ∧
      toggleLike db1 a pid = (db2, .ok l2) ∧
      (∀ u, u ∈ l2 ↔ u ∈ post.likes)) ∧
    (∀ pid2, db.posts.find? (fun p => p.id = pid2) = none →
      toggleLike db a pid2 = (db, .error .postNotFound)) := by
  constructor
  · have h1 := toggleLike_eq db a pid post hfind
    have h2 := toggleLike_eq
      { db with posts := updateFirst db.posts pid (fun p =>
          { p with likes := if a ∈ post.likes then post.likes.erase a
              else post.likes ++ [a] }) } a pid
      { post with likes := if a ∈ post.likes then post.likes.erase a
          else post.likes ++ [a] }
      (find?_updateFirst db.posts pid (fun p =>
        { p with likes := if a ∈ post.likes then post.likes.erase a
            else post.likes ++ [a] }) (fun p => rfl) post hfind)
    refine ⟨_, _, _, _, h1, rfl, h2, ?_⟩
    intro u
    by_cases hmem : a ∈ post.likes
    · simp only [hmem, if_true]
      have hna : a ∉ post.likes.erase a := hnd.not_mem_erase
      simp only [hna, if_false]
      by_cases hu : u = a
      · simp [hu, hmem]
      · simp [List.mem_append, List.mem_erase_of_ne hu, hu]
    · simp only [hmem, if_false]
      have hma : a ∈ post.likes ++ [a] := by simp
      simp only [hma, if_true]
      rw [List.erase_append_right _ hmem, List.erase_cons_head]
      simp
  · intro pid2 hnone
    unfold toggleLike
    rw [hnone]

/-- Concrete post for witnesses: alice's "hello" post, liked by bob. -/
def post1 : Post :=
  { id := "p1", authorId := "1", author := "alice", authorAvatar := "A"
    authorAvatarImage := none, text := "hello", image := none, createdAt := 5
    likes := ["2"], comments := [] }

/-- The two-user store with `post1` in its feed. -/
def dbPost : Db := { db0 with posts := [post1] }

theorem toggleLike_spec_witness :
    ∃ db1 l1 db2 l2,
      toggleLike dbPost "2" "p1" = (db1, .ok l1) ∧
      l1 = (if "2" ∈ post1.likes then post1.likes.erase "2"
        else post1.likes ++ ["2"]) ∧
      toggleLike db1 "2" "p1" = (db2, .ok l2) ∧
      (∀ u, u ∈ l2 ↔ u ∈ post1.likes) :=
  (toggleLike_spec dbPost "2" "p1" post1 (by decide) (by decide)).1

/-- C8: `createPost` fails with `EmptyPost` exactly when both `text` and
`image` are absent/empty (JS-falsy), leaving the post collection unchanged;
otherwise it appends one post whose denormalized author fields are the
actor's display fields at creation time. -/
theorem createPost_spec (db : Db) (u : User) (text image : Option String)
    (now : Nat) :
    ((falsy text ∧ falsy image) →
      createPost db u text image now = (db, .error .emptyPost)) ∧
    (¬(falsy text ∧ falsy image) →
      ∃ post, createPost db u text image now =
          ({ db with posts := db.posts ++ [post] }, .ok post) ∧
        post.authorId = u.id ∧ post.author = u.username ∧
        post.authorAvatar = u.avatar ∧ post.authorAvatarImage = u.avatarImage) := by
  constructor
  · intro h
    unfold createPost
    rw [if_pos (by simp [h.1, h.2])]
  · intro h
    unfold createPost
    rw [if_neg (fun hc => h (by simpa [Bool.and_eq_true] using hc))]
    exact ⟨_, rfl, rfl, rfl, rfl, rfl⟩

theorem createPost_spec_witness :
    createPost db0 user1 none none 7 = (db0, .error .emptyPost) ∧
    (∃ post, createPost db0 user1 (some "hello") none 7 =
        ({ db0 with posts := db0.posts ++ [post] }, .ok post) ∧
      post.authorId = user1.id ∧ post.author = user1.username ∧
      post.authorAvatar = user1.avatar ∧
      post.authorAvatarImage = user1.avatarImage) :=
  ⟨(createPost_spec db0 user1 none none 7).1 (by decide),
    (createPost_spec db0 user1 (some "hello") none 7).2 (by decide)⟩

/-- C9: `listPosts` returns a permutation of the stored posts, sorted
descending by `createdAt` (newest first), and stably: for any timestamp, the
posts carrying it appear in exactly their original insertion order (their
filtered subsequence is unchanged). -/
theorem listPosts_spec (db : Db) :
    (listPosts db).Perm db.posts ∧
    (listPosts db).Pairwise (fun a b => b.createdAt ≤ a.createdAt) ∧
    (∀ t, (listPosts db).filter (fun p => p.createdAt = t) =
      db.posts.filter (fun p => p.createdAt = t)) := by
  have htrans : ∀ a b c : Post,
      (fun a b : Post => decide (b.createdAt ≤ a.createdAt)) a b →
      (fun a b : Post => decide (b.createdAt ≤ a.createdAt)) b c →
      (fun a b : Post => decide (b.createdAt ≤ a.createdAt)) a c := by
    intro a b c hab hbc
    simp only [decide_eq_true_eq] at hab hbc ⊢
    exact le_trans hbc hab
  have htotal : ∀ a b : Post,
      ((fun a b : Post => decide (b.createdAt ≤ a.createdAt)) a b ||
        (fun a b : Post => decide (b.createdAt ≤ a.createdAt)) b a) := by
    intro a b
    simp only [Bool.or_eq_true, decide_eq_true_eq]
    exact le_total b.createdAt a.createdAt
  refine ⟨List.mergeSort_perm db.posts _, ?_, ?_⟩
  · exact (List.sorted_mergeSort htrans htotal db.posts).imp
      (fun hab => by simpa using hab)
  · intro t
    have hall : ∀ p ∈ db.posts.filter (fun p => p.createdAt = t),
        p.createdAt = t := by
      intro p hp
      simpa using (List.mem_filter.mp hp).2
    have hpw : (db.posts.filter (fun p => p.createdAt = t)).Pairwise
        (fun a b : Post => decide (b.createdAt ≤ a.createdAt)) := by
      apply List.pairwise_of_forall_mem_list
      intro a ha b hb
      simp [hall a ha, hall b hb]
    have hsub := List.sublist_mergeSort htrans htotal hpw
      (List.filter_sublist db.posts)
    have hself : (db.posts.filter (fun p => p.createdAt = t)).filter
        (fun p => p.createdAt = t) = db.posts.filter (fun p => p.createdAt = t) := by
      apply List.filter_eq_self.mpr
      intro p hp
      simp [hall p hp]
    have hsub2 := hsub.filter (fun p => decide (p.createdAt = t))
    rw [hself] at hsub2
    have hlen : ((listPosts db).filter (fun p => p.createdAt = t)).length =
        (db.posts.filter (fun p => p.createdAt = t)).length :=
      ((List.mergeSort_perm db.posts _).filter _).length_eq
    exact (hsub2.eq_of_length hlen.symm).symm

/-- C10: the chat routes perform no existence (or friendship) check on the
peer path parameter: for every peer identifier, `sendTextMessage` with
non-falsy text and `sendVoiceMessage` with non-falsy audio succeed, appending
the message to the pair's thread (created on first use, since an absent
thread reads as `[]`), and neither route can return `UserNotFound` for the
peer. -/
theorem chat_message_no_peer_check (db : Db) (u : User) (peer : String)
    (text audio : Option String) (now : Nat) (time : String)
    (ht : falsy text = false) (ha : falsy audio = false) :
    (∃ msg, sendTextMessage db u peer text now time =
        ({ db with messages := (updateMap db.messages (chatId u.id peer)
            (db.messages (chatId u.id peer) ++ [msg])) }, .ok msg) ∧
      msg.senderId = u.id ∧ msg.kind = "text") ∧
    (∃ msg, sendVoiceMessage db u peer audio now time =
        ({ db with messages := (updateMap db.messages (chatId u.id peer)
            (db.messages (chatId u.id peer) ++ [msg])) }, .ok msg) ∧
      msg.senderId = u.id ∧ msg.kind = "voice") ∧
    (∀ t2, (sendTextMessage db u peer t2 now time).2 ≠ .error .userNotFound) ∧
    (∀ a2, (sendVoiceMessage db u peer a2 now time).2 ≠ .error .userNotFound) := by
  refine ⟨?_, ?_, ?_, ?_⟩
  · unfold sendTextMessage
    rw [ht, if_neg Bool.false_ne_true]
    exact ⟨_, rfl, rfl, rfl⟩
  · unfold sendVoiceMessage
    rw [ha, if_neg Bool.false_ne_true]
    exact ⟨_, rfl, rfl, rfl⟩
  · intro t2
    unfold sendTextMessage
    split <;> simp
  · intro a2
    unfold sendVoiceMessage
    split <;> simp

theorem chat_message_no_peer_check_witness :
    (sendTextMessage db0 user1 "ghost" (some "hi") 9 "t").2 ≠
      .error .userNotFound :=
  (chat_message_no_peer_check db0 user1 "ghost" (some "hi") (some "v") 9 "t"
    (by decide) (by decide)).2.2.1 (some "hi")

theorem charListLt_asymm : ∀ as bs : List Char,
    charListLt as bs = true → charListLt bs as = false := by
  intro as
  induction as with
  | nil =>
    intro bs h
    cases bs with
    | nil => rfl
    | cons b bs => rfl
  | cons a as ih =>
    intro bs h
    cases bs with
    | nil => exact absurd h (by unfold charListLt; simp)
    | cons b bs =>
      unfold charListLt at h ⊢
      by_cases hab : a.toNat < b.toNat
      · rw [if_neg (Nat.lt_asymm hab), if_pos hab]
      · by_cases hba : b.toNat < a.toNat
        · rw [if_neg hab, if_pos hba] at h
          exact absurd h (by simp)
        · rw [if_neg hab, if_neg hba] at h
          rw [if_neg hba, if_neg hab]
          exact ih bs h

theorem charListLt_eq_of_not_lt : ∀ as bs : List Char,
    charListLt as bs = false → charListLt bs as = false → as = bs := by
  intro as
  induction as with
  | nil =>
    intro bs h1 h2
    cases bs with
    | nil => rfl
    | cons b bs => exact absurd h1 (by unfold charListLt; simp)
  | cons a as ih =>
    intro bs h1 h2
    cases bs with
    | nil => exact absurd h2 (by unfold charListLt; simp)
    | cons b bs =>
      unfold charListLt at h1 h2
      by_cases hab : a.toNat < b.toNat
      · rw [if_pos hab] at h1
        exact absurd h1 (by simp)
      · by_cases hba : b.toNat < a.toNat
        · rw [if_pos hba] at h2
          exact absurd h2 (by simp)
        · rw [if_neg hab, if_neg hba] at h1
          have hn : a.toNat = b.toNat :=
            Nat.le_antisymm (Nat.not_lt.mp hba) (Nat.not_lt.mp hab)
          have hc : a = b := Char.ext (UInt32.toNat.inj hn)
          rw [if_neg hba, if_neg hab] at h2
          rw [hc, ih bs h1 h2]

theorem chatId_comm (a b : String) : chatId a b = chatId b a := by
  unfold chatId
  cases hb : charListLt b.data a.data with
  | true =>
    have h2 := charListLt_asymm b.data a.data hb
    simp [hb, h2]
  | false =>
    cases ha : charListLt a.data b.data with
    | true => simp [hb, ha]
    | false =>
      have he : a.data = b.data := charListLt_eq_of_not_lt a.data b.data ha hb
      have hs : a = b := String.ext he
      rw [hs]

/-- A user identity not containing the separator the chat routes join with.
Every id the server itself assigns (`Date.now().toString()`, decimal digits)
has this property; the `friendId` path parameter, however, ranges over all
strings. -/
def NoSep (s : String) : Prop := ('_' : Char) ∉ s.data

theorem append_sep_inj : ∀ (x z y w : List Char), ('_' : Char) ∉ x →
    ('_' : Char) ∉ z → x ++ '_' :: y = z ++ '_' :: w → x = z ∧ y = w := by
  intro x
  induction x with
  | nil =>
    intro z y w hx hz h
    cases z with
    | nil => simpa using h
    | cons c cs =>
      rw [List.nil_append, List.cons_append] at h
      injection h with h1 h2
      have hm : ('_' : Char) ∈ c :: cs := by
        rw [h1]
        exact List.mem_cons_self c cs
      exact absurd hm hz
  | cons a as ih =>
    intro z y w hx hz h
    cases z with
    | nil =>
      rw [List.cons_append, List.nil_append] at h
      injection h with h1 h2
      have hm : ('_' : Char) ∈ a :: as := by
        rw [← h1]
        exact List.mem_cons_self a as
      exact absurd hm hx
    | cons c cs =>
      rw [List.cons_append, List.cons_append] at h
      injection h with h1 h2
      have hx' : ('_' : Char) ∉ as := fun hm => hx (List.mem_cons_of_mem a hm)
      have hz' : ('_' : Char) ∉ cs := fun hm => hz (List.mem_cons_of_mem c hm)
      obtain ⟨e1, e2⟩ := ih cs y w hx' hz' h2
      constructor
      · rw [h1, e1]
      · exact e2

theorem sep_concat_inj (x y z w : String) (hx : NoSep x) (hz : NoSep z)
    (h : x ++ "_" ++ y = z ++ "_" ++ w) : x = z ∧ y = w := by
  have hdata : x.data ++ '_' :: y.data = z.data ++ '_' :: w.data := by
    have h2 := congrArg String.data h
    simpa [String.data_append, List.append_assoc] using h2
  obtain ⟨e1, e2⟩ := append_sep_inj x.data z.data y.data w.data hx hz hdata
  exact ⟨String.ext e1, String.ext e2⟩

/-- C2 (amended): the thread key is commutative for all identities, and it is
injective over unordered pairs of identities that do not contain the
separator character of the `join('_')` (every server-assigned id is a decimal
digit string, hence separator-free). Over arbitrary identities containing
the separator, distinct unordered pairs can collide (see the
counterexample). -/
theorem chatId_comm_and_inj :
    (∀ a b : String, chatId a b = chatId b a) ∧
    (∀ a b c d : String, NoSep a → NoSep b → NoSep c → NoSep d →
      chatId a b = chatId c d → (a = c ∧ b = d) ∨ (a = d ∧ b = c)) := by
  constructor
  · exact chatId_comm
  · intro a b c d ha hb hc hd h
    unfold chatId at h
    by_cases h1 : charListLt b.data a.data = true
    · rw [if_pos h1] at h
      by_cases h2 : charListLt d.data c.data = true
      · rw [if_pos h2] at h
        obtain ⟨e1, e2⟩ := sep_concat_inj b a d c hb hd h
        exact Or.inl ⟨e2, e1⟩
      · rw [if_neg h2] at h
        obtain ⟨e1, e2⟩ := sep_concat_inj b a c d hb hc h
        exact Or.inr ⟨e2, e1⟩
    · rw [if_neg h1] at h
      by_cases h2 : charListLt d.data c.data = true
      · rw [if_pos h2] at h
        obtain ⟨e1, e2⟩ := sep_concat_inj a b d c ha hd h
        exact Or.inr ⟨e1, e2⟩
      · rw [if_neg h2] at h
        obtain ⟨e1, e2⟩ := sep_concat_inj a b c d ha hc h
        exact Or.inl ⟨e1, e2⟩

theorem chatId_comm_and_inj_witness :
    chatId "1" "2" = chatId "2" "1" ∧
    (("1" = "1" ∧ "2" = "2") ∨ ("1" = "2" ∧ "2" = "1")) :=
  ⟨chatId_comm_and_inj.1 "1" "2",
    chatId_comm_and_inj.2 "1" "2" "1" "2"
      (by show ('_' : Char) ∉ "1".data; decide)
      (by show ('_' : Char) ∉ "2".data; decide)
      (by show ('_' : Char) ∉ "1".data; decide)
      (by show ('_' : Char) ∉ "2".data; decide) rfl⟩

/-- C2 counterexample: the distinct unordered pairs \x7b"a", "b_c"\x7d and
\x7b"a_b", "c"\x7d receive the same thread key "a_b_c", because `join('_')`
is ambiguous when an identity contains the separator. -/
theorem chatId_collision :
    chatId "a" "b_c" = chatId "a_b" "c" ∧
    ¬(("a" = "a_b" ∧ "b_c" = "c") ∨ ("a" = "c" ∧ "b_c" = "a_b")) := by
  constructor
  · decide
  · decide

end NVL
